import Mathlib

/-!
Verification development for the `highcharts` chart module
(`src/highcharts/chart.py`) and the arc-diagram data module
(`src/highcharts_core/options/series/data/arcdiagram.py`).

Python values occurring in chart configuration trees are embedded as the
inductive type `PyVal`; dictionaries are association lists (preserving
insertion order, as Python dicts do), and raised Python exceptions are
embedded as `Except PyErr`.
-/

/-- A Python value as used by the chart configuration code: `None`, booleans,
numbers (modelled as integers), strings, lists and dicts, plus the library's
`EnforcedNullType` sentinel.  `enforcedNull` is modelled from the spec:
`highcharts_core.constants.EnforcedNullType` is not under `src/`; it is a
plain sentinel object (truthy, non-iterable) serialized as JS `null`. -/
inductive PyVal : Type where
  | none : PyVal
  | bool : Bool → PyVal
  | int : Int → PyVal
  | str : String → PyVal
  | list : List PyVal → PyVal
  | dict : List (PyVal × PyVal) → PyVal
  | enforcedNull : PyVal
deriving Repr

/-- The Python exceptions that the embedded code can raise. -/
inductive PyErr : Type where
  | keyError : PyErr
  | attributeError : PyErr
  | typeError : PyErr
  | indexError : PyErr
  | emptyValueError : PyErr
  | cannotCoerceError : PyErr
  | highchartsValueError : PyErr
deriving Repr, DecidableEq

mutual

/-- Python structural equality `a == b` on embedded values. -/
def pyBeq (a b : PyVal) : Bool :=
  match a, b with
  | .none, .none => true
  | .bool x, .bool y => x == y
  | .int x, .int y => x == y
  | .str x, .str y => x == y
  | .enforcedNull, .enforcedNull => true
  | .list xs, .list ys => pyBeqList xs ys
  | .dict xs, .dict ys => pyBeqPairs xs ys
  | _, _ => false
termination_by sizeOf a

/-- Elementwise Python equality of two lists. -/
def pyBeqList (xs ys : List PyVal) : Bool :=
  match xs, ys with
  | [], [] => true
  | x :: xs2, y :: ys2 => pyBeq x y && pyBeqList xs2 ys2
  | _, _ => false
termination_by sizeOf xs

/-- Entrywise Python equality of two association lists. -/
def pyBeqPairs (xs ys : List (PyVal × PyVal)) : Bool :=
  match xs, ys with
  | [], [] => true
  | (k1, v1) :: xs2, (k2, v2) :: ys2 => pyBeq k1 k2 && pyBeq v1 v2 && pyBeqPairs xs2 ys2
  | _, _ => false
termination_by sizeOf xs

end

/-- Python truthiness (`bool(v)`): `None`, `False`, `0`, `''` and empty
collections are falsy; everything else (including the `EnforcedNullType`
sentinel, a plain object) is truthy. -/
def pyTruthy : PyVal → Bool
  | .none => false
  | .bool b => b
  | .int n => decide (n ≠ 0)
  | .str s => decide (s ≠ "")
  | .list xs => !xs.isEmpty
  | .dict kvs => !kvs.isEmpty
  | .enforcedNull => true

/-- Association-list lookup, i.e. Python dict lookup by key equality. -/
def pyLookup (kvs : List (PyVal × PyVal)) (k : PyVal) : Option PyVal :=
  match kvs with
  | [] => Option.none
  | (k2, v) :: rest => if pyBeq k2 k then some v else pyLookup rest k

/-- Python dict item assignment `d[k] = v` on an association list: replaces an
existing binding in place, otherwise appends (Python dicts preserve insertion
order). -/
def pyDictSet (kvs : List (PyVal × PyVal)) (k v : PyVal) : List (PyVal × PyVal) :=
  match kvs with
  | [] => [(k, v)]
  | (k2, v2) :: rest => if pyBeq k2 k then (k2, v) :: rest else (k2, v2) :: pyDictSet rest k v

/-- Python list indexing `xs[i]` with negative-index wrapping; out-of-range
indices raise `IndexError`. -/
def pyIndex (xs : List PyVal) (i : Int) : Except PyErr PyVal :=
  let n : Int := xs.length
  let j : Int := if i < 0 then i + n else i
  if 0 ≤ j ∧ j < n then .ok (xs.getD j.toNat PyVal.none) else .error .indexError

/-- Python subscript `container[key]`: dict lookup (raising `KeyError` when the
key is absent), list/str indexing by an integer, `TypeError` otherwise. -/
def pySubscript (container key : PyVal) : Except PyErr PyVal :=
  match container with
  | .dict kvs =>
    match pyLookup kvs key with
    | some v => .ok v
    | Option.none => .error .keyError
  | .list xs =>
    match key with
    | .int i => pyIndex xs i
    | .bool b => pyIndex xs (if b then 1 else 0)
    | _ => .error .typeError
  | .str s =>
    match key with
    | .int i =>
      let n : Int := s.length
      let j : Int := if i < 0 then i + n else i
      if 0 ≤ j ∧ j < n then .ok (.str (String.mk [s.data.getD j.toNat ' '])) else .error .indexError
    | _ => .error .typeError
  | _ => .error .typeError

/-- Python `obj.get(key, None)`: only dicts have a `get` method; calling it on
`None` (or any other non-dict) raises `AttributeError`. -/
def pyGet (obj key : PyVal) : Except PyErr PyVal :=
  match obj with
  | .dict kvs => .ok ((pyLookup kvs key).getD PyVal.none)
  | _ => .error .attributeError

/-- Python `len(v)`: defined for lists, strings and dicts; `TypeError`
otherwise. -/
def pyLen : PyVal → Except PyErr Nat
  | .list xs => .ok xs.length
  | .str s => .ok s.length
  | .dict kvs => .ok kvs.length
  | _ => .error .typeError

/-- Python iteration `for x in v`: lists yield their elements, strings their
one-character substrings, dicts their keys; other values raise `TypeError`. -/
def pyIterate : PyVal → Except PyErr (List PyVal)
  | .list xs => .ok xs
  | .str s => .ok (s.data.map (fun c => PyVal.str (String.mk [c])))
  | .dict kvs => .ok (kvs.map Prod.fst)
  | _ => .error .typeError

/-- Models the third-party `validator_collection.checkers.are_dicts_equivalent`
(dependency, source not vendored under `src/`): `False` unless both arguments
are dicts with the same number of keys and, key for key, equal values
(nested values are compared structurally here; top-level key order is
ignored, as in the original checker). -/
def areDictsEquivalent (a b : PyVal) : Bool :=
  match a, b with
  | .dict d1, .dict d2 =>
    d1.length == d2.length &&
    d1.all (fun kv =>
      match pyLookup d2 kv.1 with
      | some v => pyBeq kv.2 v
      | Option.none => false)
  | _, _ => false

/-- Models `validator_collection.checkers.is_iterable` with
`forbid_literals = (str, bytes, dict, UserDict)`, as used by
`Chart._copy_dict_key`: among embedded values only lists qualify. -/
def isIterableNonStrDict : PyVal → Bool
  | .list _ => true
  | _ => false

/-- A scalar leaf in the sense of claim C4: neither a dict nor a non-string
iterable. -/
def isScalar : PyVal → Bool
  | .dict _ => false
  | .list _ => false
  | _ => true

/-- The series-matching double loop of `Chart._copy_dict_key` (chart.py lines
303-313): each item of the original series list is paired with the first
equivalent item of the other series list (`matched_series`); unmatched
original items are collected in order (`new_series`). -/
def splitSeries (origItems otherItems : List PyVal) : List (PyVal × PyVal) × List PyVal :=
  match origItems with
  | [] => ([], [])
  | x :: xs =>
    let rest := splitSeries xs otherItems
    match otherItems.find? (fun o => areDictsEquivalent x o) with
    | some o => ((x, o) :: rest.1, rest.2)
    | Option.none => (rest.1, x :: rest.2)

mutual

/-- Shallow embedding of `Chart._copy_dict_key` (chart.py lines 269-358),
indexed by fuel.  `Option.none` means the fuel ran out; `some r` is the
Python outcome, either a raised exception or the returned value.  When the
`series` branch is taken with two non-empty series lists of equal length,
the Python function body falls off the end of the `if`/`elif` chain and
implicitly returns `None`; this is modelled as `.ok PyVal.none`.  (The dead
computation of `preserve_data` aside, the branch structure follows the
source line by line.) -/
def copyDictKeyF (fuel : Nat) (key original other : PyVal)
    (overwrite preserve_data : Bool) : Option (Except PyErr PyVal) :=
  match fuel with
  | 0 => Option.none
  | fuel2 + 1 =>
    match pySubscript original key with
    | .error e => some (.error e)
    | .ok original_value =>
      match pyGet other key with
      | .error e => some (.error e)
      | .ok other_value =>
        if pyBeq key (.str "data") && preserve_data then some (.ok other_value)
        else if pyBeq key (.str "points") && preserve_data then some (.ok other_value)
        else if pyBeq key (.str "series") && preserve_data then
          if pyTruthy other_value = false then
            match pyIterate original_value with
            | .error e => some (.error e)
            | .ok xs => some (.ok (.list xs))
          else
            match pyLen other_value with
            | .error e => some (.error e)
            | .ok len_other =>
              match pyLen original_value with
              | .error e => some (.error e)
              | .ok len_original =>
                if len_other ≠ len_original then
                  match pyIterate original_value with
                  | .error e => some (.error e)
                  | .ok origItems =>
                    match pyIterate other_value with
                    | .error e => some (.error e)
                    | .ok otherItems =>
                      let pair := splitSeries origItems otherItems
                      match updatedSeriesF fuel2 pair.1 overwrite preserve_data with
                      | Option.none => Option.none
                      | some (.error e) => some (.error e)
                      | some (.ok updated) => some (.ok (.list (updated ++ pair.2)))
                else
                  some (.ok PyVal.none)
        else
          match original_value with
          | .dict kvs =>
            match copySubkeysF fuel2 (kvs.map Prod.fst) original_value other_value []
                overwrite preserve_data with
            | Option.none => Option.none
            | some (.error e) => some (.error e)
            | some (.ok new_value) => some (.ok (.dict new_value))
          | .list xs =>
            if overwrite then some (.ok (.list xs))
            else some (.ok other_value)
          | _ =>
            if pyTruthy other_value && !overwrite then some (.ok other_value)
            else some (.ok original_value)
termination_by (fuel, 0, 0)

/-- The `for subkey in original_value` loop of the dict branch of
`Chart._copy_dict_key` (chart.py lines 331-341): each subkey is copied
recursively against `other_value` and assigned into the accumulating
`new_value` dict. -/
def copySubkeysF (fuel : Nat) (subkeys : List PyVal) (original_value other_value : PyVal)
    (acc : List (PyVal × PyVal)) (overwrite preserve_data : Bool) :
    Option (Except PyErr (List (PyVal × PyVal))) :=
  match subkeys with
  | [] => some (.ok acc)
  | subkey :: rest =>
    match copyDictKeyF fuel subkey original_value other_value overwrite preserve_data with
    | Option.none => Option.none
    | some (.error e) => some (.error e)
    | some (.ok v) =>
      copySubkeysF fuel rest original_value other_value (pyDictSet acc subkey v)
        overwrite preserve_data
termination_by (fuel, 1, subkeys.length)

/-- The `for subkey in original_item` loop of the matched-series branch of
`Chart._copy_dict_key` (chart.py lines 318-326): each subkey of the original
series item is copied recursively against the partially built `new_item`
dict, then assigned into it. -/
def newItemF (fuel : Nat) (subkeys : List PyVal) (original_item : PyVal)
    (acc : List (PyVal × PyVal)) (overwrite preserve_data : Bool) :
    Option (Except PyErr (List (PyVal × PyVal))) :=
  match subkeys with
  | [] => some (.ok acc)
  | subkey :: rest =>
    match copyDictKeyF fuel subkey original_item (PyVal.dict acc) overwrite preserve_data with
    | Option.none => Option.none
    | some (.error e) => some (.error e)
    | some (.ok v) =>
      newItemF fuel rest original_item (pyDictSet acc subkey v) overwrite preserve_data
termination_by (fuel, 1, subkeys.length)

/-- The `for items in matched_series` loop of `Chart._copy_dict_key`
(chart.py lines 314-326): each matched original item is rebuilt via
`newItemF` (the matched other item is bound but never consulted, exactly as
in the source). -/
def updatedSeriesF (fuel : Nat) (matched : List (PyVal × PyVal))
    (overwrite preserve_data : Bool) : Option (Except PyErr (List PyVal)) :=
  match matched with
  | [] => some (.ok [])
  | (original_item, _) :: rest =>
    match pyIterate original_item with
    | .error e => some (.error e)
    | .ok subkeys =>
      match newItemF fuel subkeys original_item [] overwrite preserve_data with
      | Option.none => Option.none
      | some (.error e) => some (.error e)
      | some (.ok item) =>
        match updatedSeriesF fuel rest overwrite preserve_data with
        | Option.none => Option.none
        | some (.error e) => some (.error e)
        | some (.ok restItems) => some (.ok (PyVal.dict item :: restItems))
termination_by (fuel, 2, matched.length)

end

mutual

/-- Size of an embedded Python value (number of nodes in the tree); used as
the fuel bound for `copyDictKeyF`. -/
def pySize : PyVal → Nat
  | .none => 1
  | .bool _ => 1
  | .int _ => 1
  | .str _ => 1
  | .enforcedNull => 1
  | .list xs => 1 + pySizeList xs
  | .dict kvs => 1 + pySizePairs kvs
termination_by v => sizeOf v

/-- Total size of a list of embedded values. -/
def pySizeList : List PyVal → Nat
  | [] => 1
  | x :: xs => 1 + pySize x + pySizeList xs
termination_by xs => sizeOf xs

/-- Total size of an association list of embedded values. -/
def pySizePairs : List (PyVal × PyVal) → Nat
  | [] => 1
  | (k, v) :: rest => 1 + pySize k + pySize v + pySizePairs rest
termination_by kvs => sizeOf kvs

end

/-- `Chart._copy_dict_key` run with enough fuel for its recursion (which, as
proved below, `pySize original` always is). -/
def copyDictKey (key original other : PyVal) (overwrite preserve_data : Bool) :
    Option (Except PyErr PyVal) :=
  copyDictKeyF (pySize original) key original other overwrite preserve_data

theorem pySize_pos (v : PyVal) : 1 ≤ pySize v := by
  cases v <;> simp [pySize]

theorem pySizeList_cons (x : PyVal) (xs : List PyVal) :
    pySizeList (x :: xs) = 1 + pySize x + pySizeList xs := by rw [pySizeList]

theorem pySizePairs_cons (k v : PyVal) (rest : List (PyVal × PyVal)) :
    pySizePairs ((k, v) :: rest) = 1 + pySize k + pySize v + pySizePairs rest := by
  rw [pySizePairs]

theorem pyLookup_size {kvs : List (PyVal × PyVal)} {k v : PyVal}
    (h : pyLookup kvs k = some v) : pySize v < pySizePairs kvs := by
  induction kvs with
  | nil => simp [pyLookup] at h
  | cons kv rest ih =>
    obtain ⟨k2, v2⟩ := kv
    rw [pyLookup] at h
    rw [pySizePairs_cons]
    split at h
    · injection h with h2
      subst h2
      omega
    · have := ih h
      omega

theorem getD_mem_or_default (xs : List PyVal) (n : Nat) (d : PyVal) :
    xs.getD n d ∈ xs ∨ xs.getD n d = d := by
  induction xs generalizing n with
  | nil => right; simp
  | cons x rest ih =>
    cases n with
    | zero => left; simp
    | succ m =>
      rcases ih m with h | h
      · left; simp only [List.getD_cons_succ]; exact List.mem_cons_of_mem _ h
      · right; simpa using h

theorem pyIndex_mem {xs : List PyVal} {i : Int} {v : PyVal}
    (h : pyIndex xs i = .ok v) : v ∈ xs ∨ v = PyVal.none := by
  rw [pyIndex] at h
  split at h
  all_goals split at h
  all_goals first
    | (injection h with h2; subst h2; exact getD_mem_or_default xs _ _)
    | cases h

theorem pySizeList_lt_of_mem {x : PyVal} {xs : List PyVal} (h : x ∈ xs) :
    pySize x < pySizeList xs := by
  induction xs with
  | nil => cases h
  | cons y rest ih =>
    rw [pySizeList_cons]
    rcases List.mem_cons.mp h with h2 | h2
    · subst h2; omega
    · have := ih h2; omega

theorem pySizePairs_fst_lt {x : PyVal} {kvs : List (PyVal × PyVal)}
    (h : x ∈ kvs.map Prod.fst) : pySize x < pySizePairs kvs := by
  induction kvs with
  | nil => cases h
  | cons kv rest ih =>
    obtain ⟨k2, v2⟩ := kv
    rw [pySizePairs_cons]
    rcases List.mem_cons.mp h with h2 | h2
    · simp at h2; subst h2; have := pySize_pos v2; omega
    · have := ih h2; omega

theorem pySubscript_size_le {original key v : PyVal}
    (h : pySubscript original key = .ok v) : pySize v ≤ pySize original := by
  cases original with
  | dict kvs =>
    rw [pySubscript] at h
    cases hl : pyLookup kvs key with
    | none => rw [hl] at h; cases h
    | some w =>
      rw [hl] at h
      injection h with h2
      subst h2
      have := pyLookup_size hl
      simp [pySize]
      omega
  | list xs =>
    cases key <;> simp only [pySubscript] at h <;> try cases h
    all_goals
      rcases pyIndex_mem h with h2 | h2
    all_goals first
      | (have h3 := pySizeList_lt_of_mem h2; simp only [pySize]; omega)
      | (subst h2; have := pySize_pos (PyVal.list xs); simp only [pySize] at *; omega)
  | str s =>
    cases key <;> simp only [pySubscript] at h <;> try cases h
    split at h
    all_goals split at h
    all_goals first
      | (injection h with h2; subst h2; simp [pySize])
      | cases h
  | none => cases h
  | bool b => cases h
  | int n => cases h
  | enforcedNull => cases h

theorem pySubscript_dict_lt {original key : PyVal} {kvs : List (PyVal × PyVal)}
    (h : pySubscript original key = .ok (.dict kvs)) :
    pySize (PyVal.dict kvs) < pySize original := by
  cases original with
  | dict kvs2 =>
    rw [pySubscript] at h
    cases hl : pyLookup kvs2 key with
    | none => rw [hl] at h; cases h
    | some w =>
      rw [hl] at h
      injection h with h2
      subst h2
      have := pyLookup_size hl
      simp only [pySize] at this ⊢
      omega
  | list xs =>
    cases key <;> simp only [pySubscript] at h <;> try cases h
    all_goals
      rcases pyIndex_mem h with h2 | h2
    all_goals first
      | (have h3 := pySizeList_lt_of_mem h2; simp only [pySize] at h3 ⊢; omega)
      | cases h2
  | str s =>
    cases key <;> simp only [pySubscript] at h <;> try cases h
    split at h
    all_goals split at h
    all_goals cases h
  | none => cases h
  | bool b => cases h
  | int n => cases h
  | enforcedNull => cases h

theorem pyIterate_dict_lt {v : PyVal} {xs : List PyVal} {kvs : List (PyVal × PyVal)}
    (h : pyIterate v = .ok xs) (hm : PyVal.dict kvs ∈ xs) :
    pySize (PyVal.dict kvs) < pySize v := by
  cases v with
  | list ys =>
    rw [pyIterate] at h
    injection h with h2
    subst h2
    have := pySizeList_lt_of_mem hm
    simp only [pySize] at this ⊢
    omega
  | dict kvs2 =>
    rw [pyIterate] at h
    injection h with h2
    subst h2
    have := pySizePairs_fst_lt hm
    simp only [pySize] at this ⊢
    omega
  | str s =>
    rw [pyIterate] at h
    injection h with h2
    subst h2
    simp at hm
  | none => cases h
  | bool b => cases h
  | int n => cases h
  | enforcedNull => cases h

theorem areDictsEquivalent_dict {a b : PyVal} (h : areDictsEquivalent a b = true) :
    ∃ kvs, a = PyVal.dict kvs := by
  cases a <;> cases b <;>
    first
      | exact ⟨_, rfl⟩
      | simp [areDictsEquivalent] at h

theorem splitSeries_mem {p : PyVal × PyVal} {orig others : List PyVal}
    (h : p ∈ (splitSeries orig others).1) :
    p.1 ∈ orig ∧ areDictsEquivalent p.1 p.2 = true := by
  induction orig with
  | nil => simp [splitSeries] at h
  | cons x xs ih =>
    rw [splitSeries] at h
    split at h
    · rcases List.mem_cons.mp h with h2 | h2
      · subst h2
        refine ⟨List.mem_cons_self _ _, ?_⟩
        have := List.find?_some (by assumption)
        simpa using this
      · have := ih h2
        exact ⟨List.mem_cons_of_mem _ this.1, this.2⟩
    · have := ih h
      exact ⟨List.mem_cons_of_mem _ this.1, this.2⟩

theorem copySubkeysF_isSome (f : Nat) (ow pd : Bool)
    (IH : ∀ key orig other, pySize orig ≤ f →
      (copyDictKeyF f key orig other ow pd).isSome = true)
    (ks : List PyVal) :
    ∀ ov other acc, pySize ov ≤ f →
      (copySubkeysF f ks ov other acc ow pd).isSome = true := by
  induction ks with
  | nil => intro ov other acc h; simp [copySubkeysF]
  | cons k rest ih =>
    intro ov other acc h
    rw [copySubkeysF]
    have h1 := IH k ov other h
    cases hc : copyDictKeyF f k ov other ow pd with
    | none => rw [hc] at h1; simp at h1
    | some r =>
      cases r with
      | error e => simp
      | ok v => exact ih ov other _ h

theorem newItemF_isSome (f : Nat) (ow pd : Bool)
    (IH : ∀ key orig other, pySize orig ≤ f →
      (copyDictKeyF f key orig other ow pd).isSome = true)
    (ks : List PyVal) :
    ∀ oi acc, pySize oi ≤ f →
      (newItemF f ks oi acc ow pd).isSome = true := by
  induction ks with
  | nil => intro oi acc h; simp [newItemF]
  | cons k rest ih =>
    intro oi acc h
    rw [newItemF]
    have h1 := IH k oi (PyVal.dict acc) h
    cases hc : copyDictKeyF f k oi (PyVal.dict acc) ow pd with
    | none => rw [hc] at h1; simp at h1
    | some r =>
      cases r with
      | error e => simp
      | ok v => exact ih oi _ h

theorem updatedSeriesF_isSome (f : Nat) (ow pd : Bool)
    (IH : ∀ key orig other, pySize orig ≤ f →
      (copyDictKeyF f key orig other ow pd).isSome = true)
    (matched : List (PyVal × PyVal)) :
    (∀ p ∈ matched, pySize p.1 ≤ f) →
      (updatedSeriesF f matched ow pd).isSome = true := by
  induction matched with
  | nil => intro hm; simp [updatedSeriesF]
  | cons p rest ih =>
    intro hm
    obtain ⟨oi, ot⟩ := p
    rw [updatedSeriesF]
    cases hit : pyIterate oi with
    | error e => simp
    | ok subkeys =>
      have h1 := newItemF_isSome f ow pd IH subkeys oi []
        (hm (oi, ot) (List.mem_cons_self _ _))
      cases hni : newItemF f subkeys oi [] ow pd with
      | none => rw [hni] at h1; simp at h1
      | some r =>
        cases r with
        | error e => simp [hni]
        | ok item =>
          have h2 := ih (fun p hp => hm p (List.mem_cons_of_mem _ hp))
          cases hus : updatedSeriesF f rest ow pd with
          | none => rw [hus] at h2; simp at h2
          | some r2 =>
            cases r2 with
            | error e => simp [hni, hus]
            | ok restItems => simp [hni, hus]

theorem copyDictKeyF_isSome (fuel : Nat) :
    ∀ key original other ow pd, pySize original ≤ fuel →
      (copyDictKeyF fuel key original other ow pd).isSome = true := by
  induction fuel with
  | zero =>
    intro key original other ow pd h
    have := pySize_pos original
    omega
  | succ f ih =>
    intro key original other ow pd h
    rw [copyDictKeyF]
    cases hsub : pySubscript original key with
    | error e => simp
    | ok original_value =>
      cases hget : pyGet other key with
      | error e => simp
      | ok other_value =>
        by_cases h1 : (pyBeq key (.str "data") && pd) = true
        · simp [h1]
        · by_cases h2 : (pyBeq key (.str "points") && pd) = true
          · simp [h1, h2]
          · by_cases h3 : (pyBeq key (.str "series") && pd) = true
            · simp only [h1, h2, h3, if_true, if_false, Bool.false_eq_true]
              by_cases h4 : pyTruthy other_value = false
              · simp only [h4, if_true]
                cases hit : pyIterate original_value <;> simp
              · simp only [h4, if_false]
                cases hlo : pyLen other_value with
                | error e => simp
                | ok len_other =>
                  cases hlv : pyLen original_value with
                  | error e => simp
                  | ok len_original =>
                    by_cases h5 : len_other = len_original
                    · simp [h5]
                    · cases hio : pyIterate original_value with
                      | error e => simp [h5]
                      | ok origItems =>
                        cases hio2 : pyIterate other_value with
                        | error e => simp [h5]
                        | ok otherItems =>
                          have hm : ∀ p ∈ (splitSeries origItems otherItems).1,
                              pySize p.1 ≤ f := by
                            intro p hp
                            have hsp := splitSeries_mem hp
                            obtain ⟨kvs0, hkvs⟩ := areDictsEquivalent_dict hsp.2
                            have hlt : pySize p.1 < pySize original_value := by
                              rw [hkvs]
                              exact pyIterate_dict_lt hio (hkvs ▸ hsp.1)
                            have hle := pySubscript_size_le hsub
                            omega
                          have hus := updatedSeriesF_isSome f ow pd
                            (fun k o ot ho => ih k o ot ow pd ho) _ hm
                          cases husr : updatedSeriesF f (splitSeries origItems otherItems).1
                              ow pd with
                          | none => rw [husr] at hus; simp at hus
                          | some r =>
                            cases r with
                            | error e => simp [h5, husr]
                            | ok updated => simp [h5, husr]
            · simp only [h1, h2, h3, if_false, Bool.false_eq_true]
              cases original_value with
              | dict kvs =>
                have hlt := pySubscript_dict_lt hsub
                have hle : pySize (PyVal.dict kvs) ≤ f := by omega
                have hcs := copySubkeysF_isSome f ow pd
                  (fun k o ot ho => ih k o ot ow pd ho) (kvs.map Prod.fst)
                  (PyVal.dict kvs) other_value [] hle
                cases hcsr : copySubkeysF f (kvs.map Prod.fst) (PyVal.dict kvs)
                    other_value [] ow pd with
                | none => rw [hcsr] at hcs; simp at hcs
                | some r =>
                  cases r with
                  | error e => simp [hcsr]
                  | ok new_value => simp [hcsr]
              | list xs => by_cases ho : ow = true <;> simp [ho]
              | none => by_cases ho : (pyTruthy other_value && !ow) = true <;> simp [ho]
              | bool b => by_cases ho : (pyTruthy other_value && !ow) = true <;> simp [ho]
              | int n => by_cases ho : (pyTruthy other_value && !ow) = true <;> simp [ho]
              | str s => by_cases ho : (pyTruthy other_value && !ow) = true <;> simp [ho]
              | enforcedNull =>
                by_cases ho : (pyTruthy other_value && !ow) = true <;> simp [ho]

theorem pyBeq_str_iff (v : PyVal) (s : String) :
    pyBeq v (.str s) = true ↔ v = PyVal.str s := by
  cases v <;> simp [pyBeq]

theorem pyBeq_refl : ∀ (v : PyVal), pyBeq v v = true
  | .none => by rw [pyBeq]
  | .bool b => by rw [pyBeq]; simp
  | .int n => by rw [pyBeq]; simp
  | .str s => by rw [pyBeq]; simp
  | .enforcedNull => by rw [pyBeq]
  | .list [] => by rw [pyBeq]; rw [pyBeqList]
  | .list (x :: xs) => by
    rw [pyBeq, pyBeqList]
    have h1 := pyBeq_refl x
    have h2 := pyBeq_refl (.list xs)
    rw [pyBeq] at h2
    simp [h1, h2]
  | .dict [] => by rw [pyBeq]; rw [pyBeqPairs]
  | .dict ((k, v) :: rest) => by
    rw [pyBeq, pyBeqPairs]
    have h1 := pyBeq_refl k
    have h2 := pyBeq_refl v
    have h3 := pyBeq_refl (.dict rest)
    rw [pyBeq] at h3
    simp [h1, h2, h3]
termination_by v => sizeOf v

theorem exists_pySize_succ (v : PyVal) : ∃ f, pySize v = f + 1 :=
  ⟨pySize v - 1, by have := pySize_pos v; omega⟩

/-- C9: the deep merge is a single-pass, well-founded tree traversal: for every
finite configuration value `original`, every key, every other tree and both
policy flags, `Chart._copy_dict_key` terminates — the fuel-indexed embedding
returns an outcome (it never exhausts its fuel) whenever the fuel is at least
the size of the original tree, and in particular `copyDictKey` (which runs
with fuel `pySize original`) always returns an outcome. -/
theorem copyDictKey_terminates (key original other : PyVal) (ow pd : Bool) :
    (copyDictKey key original other ow pd).isSome = true ∧
    ∀ fuel, pySize original ≤ fuel →
      (copyDictKeyF fuel key original other ow pd).isSome = true :=
  ⟨copyDictKeyF_isSome (pySize original) key original other ow pd le_rfl,
   fun fuel h => copyDictKeyF_isSome fuel key original other ow pd h⟩

/-- Witness for C9 at a concrete chart-options tree. -/
theorem copyDictKey_terminates_witness :
    pySize (PyVal.dict [(PyVal.str "title",
      PyVal.dict [(PyVal.str "text", PyVal.str "hi")])]) ≤ 20 ∧
    (copyDictKeyF 20 (PyVal.str "title")
      (PyVal.dict [(PyVal.str "title", PyVal.dict [(PyVal.str "text", PyVal.str "hi")])])
      (PyVal.dict [(PyVal.str "title", PyVal.dict [(PyVal.str "text", PyVal.str "yo")])])
      true true).isSome = true :=
  ⟨by simp [pySize, pySizePairs, pySizeList],
   (copyDictKey_terminates (PyVal.str "title")
      (PyVal.dict [(PyVal.str "title", PyVal.dict [(PyVal.str "text", PyVal.str "hi")])])
      (PyVal.dict [(PyVal.str "title", PyVal.dict [(PyVal.str "text", PyVal.str "yo")])])
      true true).2 20 (by simp [pySize, pySizePairs, pySizeList])⟩

/-- C1 (code evaluation): when both the original and the other dict hold
non-empty `series` lists of the same length and `preserve_data` is `True`,
`Chart._copy_dict_key` falls off the end of its `if`/`elif` chain and returns
Python `None` — not a list reconciling the two series lists. -/
theorem copyDictKey_series_equal_length_none :
    ∀ (orig other : List (PyVal × PyVal)) (xs ys : List PyVal) (ow : Bool),
    pyLookup orig (.str "series") = some (.list xs) →
    pyLookup other (.str "series") = some (.list ys) →
    ys ≠ [] →
    xs.length = ys.length →
    copyDictKey (.str "series") (.dict orig) (.dict other) ow true
      = some (.ok PyVal.none) := by
  intro orig other xs ys ow h1 h2 hne hlen
  obtain ⟨f, hf⟩ := exists_pySize_succ (PyVal.dict orig)
  unfold copyDictKey
  rw [hf]
  rw [copyDictKeyF]
  simp only [pySubscript, pyGet, h1, h2, Option.getD_some]
  have hd : pyBeq (PyVal.str "series") (PyVal.str "data") = false := by
    rw [pyBeq]; simp
  have hp : pyBeq (PyVal.str "series") (PyVal.str "points") = false := by
    rw [pyBeq]; simp
  have hs : pyBeq (PyVal.str "series") (PyVal.str "series") = true := pyBeq_refl _
  have ht : pyTruthy (PyVal.list ys) = true := by
    simp [pyTruthy, hne]
  simp [hd, hp, hs, ht, pyLen, hlen]

/-- Closed witness for C1 at the failing input from RESULTS. -/
theorem copyDictKey_series_equal_length_none_witness :
    copyDictKey (.str "series")
      (.dict [(.str "series", .list [.dict [(.str "x", .int 1)]])])
      (.dict [(.str "series", .list [.dict [(.str "y", .int 2)]])]) true true
      = some (.ok PyVal.none) :=
  copyDictKey_series_equal_length_none
    [(.str "series", .list [.dict [(.str "x", .int 1)]])]
    [(.str "series", .list [.dict [(.str "y", .int 2)]])]
    [.dict [(.str "x", .int 1)]]
    [.dict [(.str "y", .int 2)]] true
    (by simp [pyLookup, pyBeq])
    (by simp [pyLookup, pyBeq])
    (by simp)
    (by simp)

/-- C3: with `preserve_data` at its default `True`, for the keys `data` and
`points` (present in the original dict), `Chart._copy_dict_key` returns
exactly the other dict's current value for that key — `None` when absent —
irrespective of `overwrite`. -/
theorem copyDictKey_data_points_preserved :
    ∀ (orig other : List (PyVal × PyVal)) (v : PyVal) (ow : Bool),
    (pyLookup orig (.str "data") = some v →
      copyDictKey (.str "data") (.dict orig) (.dict other) ow true
        = some (.ok ((pyLookup other (.str "data")).getD PyVal.none))) ∧
    (pyLookup orig (.str "points") = some v →
      copyDictKey (.str "points") (.dict orig) (.dict other) ow true
        = some (.ok ((pyLookup other (.str "points")).getD PyVal.none))) := by
  intro orig other v ow
  constructor
  · intro h
    obtain ⟨f, hf⟩ := exists_pySize_succ (PyVal.dict orig)
    unfold copyDictKey
    rw [hf, copyDictKeyF]
    simp only [pySubscript, pyGet, h]
    have hd : pyBeq (PyVal.str "data") (PyVal.str "data") = true := pyBeq_refl _
    simp [hd]
  · intro h
    obtain ⟨f, hf⟩ := exists_pySize_succ (PyVal.dict orig)
    unfold copyDictKey
    rw [hf, copyDictKeyF]
    simp only [pySubscript, pyGet, h]
    have hd : pyBeq (PyVal.str "points") (PyVal.str "data") = false := by
      rw [pyBeq]; simp
    have hp : pyBeq (PyVal.str "points") (PyVal.str "points") = true := pyBeq_refl _
    simp [hd, hp]

/-- Witness for C3: `data` and `points` values of the other dict survive the
merge unchanged (here: the other dict has `data` set and `points` absent). -/
theorem copyDictKey_data_points_preserved_witness :
    copyDictKey (.str "data")
      (.dict [(.str "data", .list [.int 1, .int 2])])
      (.dict [(.str "data", .list [.int 9])]) true true
      = some (.ok (.list [.int 9])) ∧
    copyDictKey (.str "points")
      (.dict [(.str "points", .list [.int 1])])
      (.dict []) true true
      = some (.ok PyVal.none) := by
  constructor
  · have h := (copyDictKey_data_points_preserved
      [(.str "data", .list [.int 1, .int 2])] [(.str "data", .list [.int 9])]
      (.list [.int 1, .int 2]) true).1 (by simp [pyLookup, pyBeq])
    rw [h]
    simp [pyLookup, pyBeq]
  · have h := (copyDictKey_data_points_preserved
      [(.str "points", .list [.int 1])] [] (.list [.int 1]) true).2
      (by simp [pyLookup, pyBeq])
    rw [h]
    simp [pyLookup]

theorem pyBeq_str_false {v : PyVal} {s : String} (h : v ≠ PyVal.str s) :
    pyBeq v (PyVal.str s) = false := by
  cases hb : pyBeq v (PyVal.str s)
  · rfl
  · exact absurd ((pyBeq_str_iff v s).mp hb) h

theorem pySizePairs_pos (kvs : List (PyVal × PyVal)) : 1 ≤ pySizePairs kvs := by
  cases kvs with
  | nil => simp [pySizePairs]
  | cons kv rest =>
    obtain ⟨k, v⟩ := kv
    rw [pySizePairs_cons]
    have := pySize_pos k
    omega

theorem pyLookup_of_mem_fst : ∀ {kvs : List (PyVal × PyVal)} {k : PyVal},
    k ∈ kvs.map Prod.fst →
    ∃ v k2, pyLookup kvs k = some v ∧ (k2, v) ∈ kvs ∧ pyBeq k2 k = true := by
  intro kvs
  induction kvs with
  | nil => intro k h; simp at h
  | cons kv rest ih =>
    intro k h
    obtain ⟨k2, v2⟩ := kv
    by_cases hb : pyBeq k2 k = true
    · exact ⟨v2, k2, by rw [pyLookup]; simp [hb], List.mem_cons_self _ _, hb⟩
    · have hk : k ∈ rest.map Prod.fst := by
        rw [List.map_cons] at h
        rcases List.mem_cons.mp h with h2 | h2
        · rw [h2] at hb; exact absurd (pyBeq_refl k2) hb
        · exact h2
      obtain ⟨v, k3, hv, hmem, hb3⟩ := ih hk
      exact ⟨v, k3, by rw [pyLookup]; simp [hb, hv], List.mem_cons_of_mem _ hmem, hb3⟩

/-- One non-special scalar step of `_copy_dict_key`: with the three
`data`/`points`/`series` special cases switched off, a scalar original value
is resolved by the overwrite policy of chart.py lines 343-358. -/
theorem copyDictKeyF_scalar_eval (g : Nat) (key original other ov v : PyVal) (ow pd : Bool)
    (hsub : pySubscript original key = .ok v)
    (hget : pyGet other key = .ok ov)
    (hscal : isScalar v = true)
    (hd : (pyBeq key (PyVal.str "data") && pd) = false)
    (hp : (pyBeq key (PyVal.str "points") && pd) = false)
    (hs : (pyBeq key (PyVal.str "series") && pd) = false) :
    copyDictKeyF (g + 1) key original other ow pd
      = some (.ok (if pyTruthy ov && !ow then ov else v)) := by
  rw [copyDictKeyF]
  simp only [hsub, hget, hd, hp, hs, Bool.false_eq_true, if_false]
  cases v
  case dict kvs2 => simp [isScalar] at hscal
  case list xs => simp [isScalar] at hscal
  all_goals (by_cases ho : (pyTruthy ov && !ow) = true <;> simp [ho])

/-- Iterating the dict branch's subkey loop over a flat (all-scalar) original
subtree against a dict `other` subtree never raises and never runs out of
fuel. -/
theorem copySubkeysF_flat_ok (g : Nat) (sub osub2 : List (PyVal × PyVal)) (ow pd : Bool) :
    ∀ ks acc,
    (∀ k ∈ ks, ∃ v, pyLookup sub k = some v ∧ isScalar v = true ∧
      (pd = true → pyBeq k (PyVal.str "series") = false)) →
    ∃ res, copySubkeysF (g + 1) ks (.dict sub) (.dict osub2) acc ow pd = some (.ok res) := by
  intro ks
  induction ks with
  | nil => intro acc _; exact ⟨acc, by rw [copySubkeysF]⟩
  | cons k rest ih =>
    intro acc hks
    obtain ⟨v, hv, hscal, hser⟩ := hks k (List.mem_cons_self _ _)
    have hsub : pySubscript (PyVal.dict sub) k = .ok v := by
      simp [pySubscript, hv]
    have hget : pyGet (PyVal.dict osub2) k = .ok ((pyLookup osub2 k).getD PyVal.none) := by
      simp [pyGet]
    obtain ⟨res, hres⟩ := ih (pyDictSet acc k ((pyLookup osub2 k).getD PyVal.none))
      (fun k2 hk2 => hks k2 (List.mem_cons_of_mem _ hk2))
    by_cases hd : (pyBeq k (PyVal.str "data") && pd) = true
    · have hstep : copyDictKeyF (g + 1) k (.dict sub) (.dict osub2) ow pd
          = some (.ok ((pyLookup osub2 k).getD PyVal.none)) := by
        rw [copyDictKeyF]
        simp only [hsub, hget]
        simp [hd]
      exact ⟨res, by rw [copySubkeysF, hstep]; exact hres⟩
    · by_cases hp : (pyBeq k (PyVal.str "points") && pd) = true
      · have hstep : copyDictKeyF (g + 1) k (.dict sub) (.dict osub2) ow pd
            = some (.ok ((pyLookup osub2 k).getD PyVal.none)) := by
          rw [copyDictKeyF]
          simp only [hsub, hget]
          simp [hd, hp]
        exact ⟨res, by rw [copySubkeysF, hstep]; exact hres⟩
      · have hs : (pyBeq k (PyVal.str "series") && pd) = false := by
          cases hpd : pd
          · simp [hpd]
          · simp [hser hpd]
        have hstep := copyDictKeyF_scalar_eval g k (.dict sub) (.dict osub2)
          ((pyLookup osub2 k).getD PyVal.none) v ow pd hsub hget hscal
          (by simpa using hd) (by simpa using hp) hs
        by_cases ho : (pyTruthy ((pyLookup osub2 k).getD PyVal.none) && !ow) = true
        · rw [if_pos ho] at hstep
          exact ⟨res, by rw [copySubkeysF, hstep]; exact hres⟩
        · rw [if_neg ho] at hstep
          obtain ⟨res2, hres2⟩ := ih (pyDictSet acc k v)
            (fun k2 hk2 => hks k2 (List.mem_cons_of_mem _ hk2))
          exact ⟨res2, by rw [copySubkeysF, hstep]; exact hres2⟩

/-- C2 counterexample: with an original whose value at the key is a non-empty
dict and an other dict that lacks the key entirely, `Chart._copy_dict_key`
does not return a merged sub-dict; the recursive call receives `None` as its
`other` argument and `None.get(...)` raises `AttributeError`. -/
theorem copyDictKey_missing_subtree_error :
    copyDictKey (.str "chart")
      (.dict [(.str "chart", .dict [(.str "height", .int 400)])])
      (.dict []) true true = some (.error .attributeError) := by
  simp [copyDictKey, copyDictKeyF, copySubkeysF, pySize, pySizePairs, pySizeList,
    pySubscript, pyGet, pyLookup, pyBeq, pyTruthy]

/-- C2 (amended): for a key bound to a dict in the original (and not one of
the `data`/`points`/`series` special cases when `preserve_data` is on):
(i) an empty sub-dict merges to `{}` even when the other dict lacks the key;
(ii) a non-empty sub-dict with the key missing from the other dict raises
`AttributeError` — the missing subtree is not treated as empty;
(iii) when the other dict holds a dict at the key and every value of the
original sub-dict is a scalar leaf (with no nested `series` subkey when
`preserve_data` is on), the recursion completes and returns a merged
sub-dict. -/
theorem copyDictKey_dict_branch_behavior :
    ∀ (orig osub : List (PyVal × PyVal)) (key : PyVal) (ow pd : Bool),
    (pd = true → key ≠ PyVal.str "data" ∧ key ≠ PyVal.str "points" ∧
      key ≠ PyVal.str "series") →
    (pyLookup orig key = some (.dict []) →
      copyDictKey key (.dict orig) (.dict osub) ow pd = some (.ok (.dict []))) ∧
    (∀ k0 v0 sub, pyLookup orig key = some (.dict ((k0, v0) :: sub)) →
      pyLookup osub key = Option.none →
      copyDictKey key (.dict orig) (.dict osub) ow pd
        = some (.error .attributeError)) ∧
    (∀ sub osub2, pyLookup orig key = some (.dict sub) →
      pyLookup osub key = some (.dict osub2) →
      (∀ kv ∈ sub, isScalar kv.2 = true ∧
        (pd = true → kv.1 ≠ PyVal.str "series")) →
      ∃ res, copyDictKey key (.dict orig) (.dict osub) ow pd
        = some (.ok (.dict res))) := by
  intro orig osub key ow pd hk
  have hspec : (pyBeq key (PyVal.str "data") && pd) = false ∧
      (pyBeq key (PyVal.str "points") && pd) = false ∧
      (pyBeq key (PyVal.str "series") && pd) = false := by
    cases hpd : pd
    · simp
    · obtain ⟨h1, h2, h3⟩ := hk hpd
      exact ⟨by simp [pyBeq_str_false h1], by simp [pyBeq_str_false h2],
        by simp [pyBeq_str_false h3]⟩
  obtain ⟨hd, hp, hs⟩ := hspec
  refine ⟨?_, ?_, ?_⟩
  · intro hv
    obtain ⟨f, hf⟩ := exists_pySize_succ (PyVal.dict orig)
    unfold copyDictKey
    rw [hf, copyDictKeyF]
    simp only [pySubscript, pyGet, hv, hd, hp, hs, Bool.false_eq_true, if_false]
    simp [copySubkeysF]
  · intro k0 v0 sub hv hmiss
    have h1 := pyLookup_size hv
    have h2 : 2 ≤ pySize (PyVal.dict ((k0, v0) :: sub)) := by
      rw [pySize]
      have := pySizePairs_pos ((k0, v0) :: sub)
      omega
    obtain ⟨g, hg⟩ : ∃ g, pySize (PyVal.dict orig) = g + 1 + 1 :=
      ⟨pySize (PyVal.dict orig) - 2, by
        have h3 : pySize (PyVal.dict orig) = 1 + pySizePairs orig := by rw [pySize]
        omega⟩
    unfold copyDictKey
    rw [hg, copyDictKeyF]
    simp only [pySubscript, pyGet, hv, hmiss, hd, hp, hs, Bool.false_eq_true, if_false,
      Option.getD_none, List.map_cons]
    have hstep : copyDictKeyF (g + 1) k0 (.dict ((k0, v0) :: sub)) PyVal.none ow pd
        = some (.error .attributeError) := by
      rw [copyDictKeyF]
      have hsub0 : pySubscript (PyVal.dict ((k0, v0) :: sub)) k0 = .ok v0 := by
        simp [pySubscript, pyLookup, pyBeq_refl k0]
      simp only [hsub0]
      simp [pyGet]
    rw [copySubkeysF, hstep]
  · intro sub osub2 hv hosub hflat
    have h1 := pyLookup_size hv
    have h2 : 2 ≤ pySize (PyVal.dict sub) := by
      rw [pySize]
      have := pySizePairs_pos sub
      omega
    obtain ⟨g, hg⟩ : ∃ g, pySize (PyVal.dict orig) = g + 1 + 1 :=
      ⟨pySize (PyVal.dict orig) - 2, by
        have h3 : pySize (PyVal.dict orig) = 1 + pySizePairs orig := by rw [pySize]
        omega⟩
    have hks : ∀ k ∈ sub.map Prod.fst, ∃ v, pyLookup sub k = some v ∧
        isScalar v = true ∧ (pd = true → pyBeq k (PyVal.str "series") = false) := by
      intro k hkmem
      obtain ⟨v, k2, hlook, hmem, hbeq⟩ := pyLookup_of_mem_fst hkmem
      refine ⟨v, hlook, (hflat (k2, v) hmem).1, ?_⟩
      intro hpd
      cases hbk : pyBeq k (PyVal.str "series")
      · rfl
      · exfalso
        have hkser := (pyBeq_str_iff k "series").mp hbk
        rw [hkser] at hbeq
        exact (hflat (k2, v) hmem).2 hpd ((pyBeq_str_iff k2 "series").mp hbeq)
    obtain ⟨res, hres⟩ := copySubkeysF_flat_ok g sub osub2 ow pd (sub.map Prod.fst) [] hks
    refine ⟨res, ?_⟩
    unfold copyDictKey
    rw [hg, copyDictKeyF]
    simp only [pySubscript, pyGet, hv, hosub, hd, hp, hs, Bool.false_eq_true, if_false]
    rw [Option.getD_some, hres]

/-- Witness for C2's amended statement: the empty-subtree case completes with
`{}`, and the missing-subtree case raises `AttributeError`. -/
theorem copyDictKey_dict_branch_behavior_witness :
    copyDictKey (.str "a") (.dict [(.str "a", .dict [])]) (.dict []) true true
      = some (.ok (.dict [])) ∧
    copyDictKey (.str "b") (.dict [(.str "b", .dict [(.str "c", .int 1)])])
      (.dict []) false true = some (.error .attributeError) := by
  constructor
  · exact (copyDictKey_dict_branch_behavior [(.str "a", .dict [])] [] (.str "a")
      true true (by intro _; refine ⟨?_, ?_, ?_⟩ <;> simp)).1
      (by simp [pyLookup, pyBeq])
  · exact (copyDictKey_dict_branch_behavior [(.str "b", .dict [(.str "c", .int 1)])]
      [] (.str "b") false true (by intro _; refine ⟨?_, ?_, ?_⟩ <;> simp)).2.1
      (.str "c") (.int 1) [] (by simp [pyLookup, pyBeq]) (by simp [pyLookup])

/-- C4 counterexample: for the key `data` (with `preserve_data` at its default
`True`) and `overwrite = True`, `Chart._copy_dict_key` returns the OTHER
dict's value `7`, not the original dict's value `5` as the claim's overwrite
policy requires for every key. -/
theorem copyDictKey_scalar_policy_counterexample :
    copyDictKey (.str "data") (.dict [(.str "data", .int 5)])
      (.dict [(.str "data", .int 7)]) true true = some (.ok (.int 7)) ∧
    copyDictKey (.str "data") (.dict [(.str "data", .int 5)])
      (.dict [(.str "data", .int 7)]) true true ≠ some (.ok (.int 5)) := by
  have h : copyDictKey (.str "data") (.dict [(.str "data", .int 5)])
      (.dict [(.str "data", .int 7)]) true true = some (.ok (.int 7)) := by
    simp [copyDictKey, copyDictKeyF, pySize, pySizePairs, pySizeList, pySubscript,
      pyGet, pyLookup, pyBeq]
  refine ⟨h, ?_⟩
  rw [h]
  intro hcontra
  injection hcontra with h2
  injection h2 with h3
  injection h3 with h4
  omega

/-- C4 (amended): for every key that is not one of the `data`/`points`/`series`
special cases (when `preserve_data` is on) and whose value in the original
dict is a scalar leaf, `Chart._copy_dict_key` implements the overwrite
policy: with `overwrite = True` the original value is returned; with
`overwrite = False` the other dict's value is returned when that value is
truthy, and the original value otherwise (in particular when the other dict
lacks the key, or holds a falsy value such as `0` or `''`). -/
theorem copyDictKey_scalar_policy :
    ∀ (orig other : List (PyVal × PyVal)) (key v : PyVal) (ow pd : Bool),
    pyLookup orig key = some v →
    isScalar v = true →
    (pd = true → key ≠ PyVal.str "data" ∧ key ≠ PyVal.str "points" ∧
      key ≠ PyVal.str "series") →
    (ow = true →
      copyDictKey key (.dict orig) (.dict other) ow pd = some (.ok v)) ∧
    (ow = false → pyTruthy ((pyLookup other key).getD PyVal.none) = true →
      copyDictKey key (.dict orig) (.dict other) ow pd
        = some (.ok ((pyLookup other key).getD PyVal.none))) ∧
    (ow = false → pyTruthy ((pyLookup other key).getD PyVal.none) = false →
      copyDictKey key (.dict orig) (.dict other) ow pd = some (.ok v)) := by
  intro orig other key v ow pd hv hscal hk
  have hspec : (pyBeq key (PyVal.str "data") && pd) = false ∧
      (pyBeq key (PyVal.str "points") && pd) = false ∧
      (pyBeq key (PyVal.str "series") && pd) = false := by
    cases hpd : pd
    · simp
    · obtain ⟨h1, h2, h3⟩ := hk hpd
      exact ⟨by simp [pyBeq_str_false h1], by simp [pyBeq_str_false h2],
        by simp [pyBeq_str_false h3]⟩
  obtain ⟨hd, hp, hs⟩ := hspec
  obtain ⟨f, hf⟩ := exists_pySize_succ (PyVal.dict orig)
  have heval := copyDictKeyF_scalar_eval f key (.dict orig) (.dict other)
    ((pyLookup other key).getD PyVal.none) v ow pd
    (by simp [pySubscript, hv]) (by simp [pyGet]) hscal hd hp hs
  have hrun : copyDictKey key (.dict orig) (.dict other) ow pd
      = some (.ok (if pyTruthy ((pyLookup other key).getD PyVal.none) && !ow
        then (pyLookup other key).getD PyVal.none else v)) := by
    unfold copyDictKey
    rw [hf]
    exact heval
  refine ⟨?_, ?_, ?_⟩
  · intro how; rw [hrun, how]; simp
  · intro how ht; rw [hrun, how, ht]; simp
  · intro how ht; rw [hrun, how, ht]; simp

/-- Witness for C4's amended statement: a non-special scalar key under each of
the three policy outcomes. -/
theorem copyDictKey_scalar_policy_witness :
    copyDictKey (.str "width") (.dict [(.str "width", .int 5)])
      (.dict [(.str "width", .int 7)]) true true = some (.ok (.int 5)) ∧
    copyDictKey (.str "width") (.dict [(.str "width", .int 5)])
      (.dict [(.str "width", .int 7)]) false true = some (.ok (.int 7)) ∧
    copyDictKey (.str "width") (.dict [(.str "width", .int 5)])
      (.dict [(.str "width", .int 0)]) false true = some (.ok (.int 5)) := by
  refine ⟨?_, ?_, ?_⟩
  · exact (copyDictKey_scalar_policy [(.str "width", .int 5)] [(.str "width", .int 7)]
      (.str "width") (.int 5) true true (by simp [pyLookup, pyBeq]) (by simp [isScalar])
      (by intro _; refine ⟨?_, ?_, ?_⟩ <;> simp)).1 rfl
  · have h := (copyDictKey_scalar_policy [(.str "width", .int 5)] [(.str "width", .int 7)]
      (.str "width") (.int 5) false true (by simp [pyLookup, pyBeq]) (by simp [isScalar])
      (by intro _; refine ⟨?_, ?_, ?_⟩ <;> simp)).2.1 rfl
      (by simp [pyLookup, pyBeq, pyTruthy])
    rw [h]
    simp [pyLookup, pyBeq]
  · exact (copyDictKey_scalar_policy [(.str "width", .int 5)] [(.str "width", .int 0)]
      (.str "width") (.int 5) false true (by simp [pyLookup, pyBeq]) (by simp [isScalar])
      (by intro _; refine ⟨?_, ?_, ?_⟩ <;> simp)).2.2 rfl
      (by simp [pyLookup, pyBeq, pyTruthy])

namespace Chart

/-- Serialization view of a `Chart` instance as consumed by
`Chart.to_js_literal` (chart.py lines 126-207).  `container` and
`variable_name` hold the string fields themselves; for `options` and
`callback`, `some s` means the field is set to an object whose own
`to_js_literal` renders as `s` (`HighchartsOptions.to_js_literal` and
`CallbackFunction.to_js_literal` are not under `src/`, so their output is
abstracted as the stored string); `Option.none` is Python `None`. -/
structure JsView where
  container : Option String
  options : Option String
  callback : Option String
  variable_name : Option String

/-- Shallow embedding of `Chart.to_js_literal` (chart.py lines 154-207),
string-building part.  Mirrors the source: each fragment is built when its
field is truthy, `signature_elements` counts the set fields, and a `',\n'`
separator is appended after the `renderTo` and `options` fragments whenever
`signature_elements > 1`; a leading `var <name> = ` is added when
`variable_name` is truthy.  (The `serialize_to_js_literal` loop over the
untrimmed dict at the top of the source function only builds a local
`as_dict` that is never used afterwards, so it does not appear here.) -/
def toJsLiteral (c : JsView) : String :=
  let container_as_str : String :=
    match c.container with
    | some s => if s = "" then "" else "renderTo = \x27" ++ s ++ "\x27"
    | Option.none => ""
  let options_as_str : String :=
    match c.options with
    | some s => "options = " ++ s
    | Option.none => ""
  let callback_as_str : String :=
    match c.callback with
    | some s => "callback = " ++ s
    | Option.none => ""
  let signature_elements : Nat :=
    (match c.container with
      | some s => if s = "" then 0 else 1
      | Option.none => 0) +
    (match c.options with | some _ => 1 | Option.none => 0) +
    (match c.callback with | some _ => 1 | Option.none => 0)
  let signature1 := "new Highcharts.chart("
  let signature2 :=
    if container_as_str ≠ "" then
      signature1 ++ container_as_str ++ (if signature_elements > 1 then ",\n" else "")
    else signature1
  let signature3 :=
    if options_as_str ≠ "" then
      signature2 ++ options_as_str ++ (if signature_elements > 1 then ",\n" else "")
    else signature2
  let signature4 :=
    if callback_as_str ≠ "" then signature3 ++ callback_as_str else signature3
  let signature5 := signature4 ++ ");"
  let vardecl : String :=
    match c.variable_name with
    | some s => if s = "" then "" else "var " ++ s ++ " = "
    | Option.none => ""
  vardecl ++ signature5

/-- `Chart.to_js_literal` including its optional `filename` argument: the
returned string together with the file writes performed (chart.py lines
203-207 write exactly `as_str` to the file when a filename is given). -/
def toJsLiteralWrite (c : JsView) (filename : Option String) :
    String × List (String × String) :=
  let as_str := toJsLiteral c
  (as_str,
    match filename with
    | some f => [(f, as_str)]
    | Option.none => [])

/-- Whether the `container` field is truthy (set to a non-empty string). -/
def containerSet (c : JsView) : Bool :=
  match c.container with
  | some s => decide (s ≠ "")
  | Option.none => false

/-- The fragments for exactly the fields that are set, in source order. -/
def jsParts (c : JsView) : List String :=
  (match c.container with
    | some s => if s = "" then [] else ["renderTo = \x27" ++ s ++ "\x27"]
    | Option.none => []) ++
  (match c.options with
    | some s => ["options = " ++ s]
    | Option.none => []) ++
  (match c.callback with
    | some s => ["callback = " ++ s]
    | Option.none => [])

/-- Fragments joined by the `',\n'` separator, with no separator before or
after the ends (the spec's "separated by `',\n'`"). -/
def joinParts : List String → String
  | [] => ""
  | [p] => p
  | p :: rest => p ++ ",\n" ++ joinParts rest

/-- The `var <name> = ` assignment produced for a truthy `variable_name`. -/
def varDecl (c : JsView) : String :=
  match c.variable_name with
  | some s => if s = "" then "" else "var " ++ s ++ " = "
  | Option.none => ""

/-- Claim C6's rendering, written from the claim's own words (refinement
reference): the set fields' fragments separated by `',\n'`, with no
separator immediately before the closing `');'`. -/
def claimedJsLiteral (c : JsView) : String :=
  varDecl c ++ "new Highcharts.chart(" ++ joinParts (jsParts c) ++ ");"

end Chart

theorem string_append_eq_empty_iff (a b : String) : a ++ b = "" ↔ a = "" ∧ b = "" := by
  constructor
  · intro hc
    have hd : a.data ++ b.data = ([] : List Char) := by
      have h2 := congrArg String.data hc
      rwa [String.data_append] at h2
    obtain ⟨h1, h2⟩ := List.append_eq_nil.mp hd
    constructor
    · obtain ⟨da⟩ := a
      exact congrArg String.mk h1
    · obtain ⟨db⟩ := b
      exact congrArg String.mk h2
  · rintro ⟨rfl, rfl⟩
    rfl

/-- C6 counterexample: with `container` and `options` set but no `callback`,
`Chart.to_js_literal` appends the `',\n'` separator after the options
fragment and then immediately closes with `');'`, so the produced string is
not the claimed separator-free join (it ends in `',\n);'`). -/
theorem toJsLiteral_counterexample :
    Chart.toJsLiteral ⟨some "div1", some "42", Option.none, Option.none⟩ ≠
      Chart.claimedJsLiteral ⟨some "div1", some "42", Option.none, Option.none⟩ ∧
    Chart.toJsLiteral ⟨some "div1", some "42", Option.none, Option.none⟩ =
      "new Highcharts.chart(renderTo = \x27div1\x27,\noptions = 42,\n);" := by
  constructor
  · decide
  · rfl

/-- C6 (amended): `Chart.to_js_literal` returns
`[var <variable_name> = ]new Highcharts.chart(<parts>);` where `<parts>` are
the `renderTo`/`options`/`callback` fragments of exactly the set fields
joined by `',\n'` — except that when both `container` and `options` are set
while `callback` is not, a trailing `',\n'` appears immediately before the
closing `');'`.  When a filename is given, exactly the returned string is
written to that file. -/
theorem toJsLiteral_amended :
    ∀ (c : Chart.JsView) (filename : Option String),
    Chart.toJsLiteral c =
      Chart.varDecl c ++ "new Highcharts.chart(" ++
        Chart.joinParts (Chart.jsParts c) ++
        (if Chart.containerSet c && c.options.isSome && c.callback.isNone
          then ",\n" else "") ++ ");" ∧
    (Chart.toJsLiteralWrite c filename).1 = Chart.toJsLiteral c ∧
    (Chart.toJsLiteralWrite c filename).2 =
      (filename.map (fun f => (f, Chart.toJsLiteral c))).toList := by
  intro c filename
  refine ⟨?_, rfl, ?_⟩
  · obtain ⟨cont, opts, cb, vn⟩ := c
    cases cont with
    | none =>
      cases opts <;> cases cb <;>
        simp [Chart.toJsLiteral, Chart.varDecl, Chart.jsParts, Chart.joinParts,
          Chart.containerSet, String.append_assoc, String.append_empty,
          String.empty_append, string_append_eq_empty_iff]
    | some s =>
      by_cases hs : s = "" <;>
        cases opts <;> cases cb <;>
          simp [Chart.toJsLiteral, Chart.varDecl, Chart.jsParts, Chart.joinParts,
            Chart.containerSet, hs, String.append_assoc, String.append_empty,
            String.empty_append, string_append_eq_empty_iff]
  · cases filename <;> rfl

namespace Chart

/-- The `server_instance` argument of `Chart.download_chart`: Python `None`
(or another falsy value), a genuine `ExportServer` instance, or a truthy
object of some other class. -/
inductive ServerArg : Type where
  | noServer : ServerArg
  | exportServer : ServerArg
  | otherObject : ServerArg
deriving Repr, DecidableEq

/-- The export-server request issued by `Chart.download_chart`: which method
was called (`ExportServer.get_chart` when no instance is supplied,
`server_instance.request_chart` otherwise) and the arguments passed to it.
`ExportServer` itself is not under `src/`; per the spec it is the client of
the external HTTP service that rasterizes a chart configuration into an
image, and this record captures exactly the information the source hands
it.  The `options` field records the chart configuration passed to the
server, if any. -/
structure ExportCall where
  viaInstance : Bool
  filename : Option String
  auth_user : Option String
  auth_password : Option String
  timeout : Option Int
  extra_kwargs : List (String × PyVal)
  options : Option PyVal

/-- Shallow embedding of `Chart.download_chart` (chart.py lines 209-267).
`chart_options` is the chart's own `options` configuration (unused by the
source, which never references `self`); the result is the request issued, or
the `HighchartsValueError` raised for a truthy non-`ExportServer`
`server_instance`.  Neither call site passes the chart's options, so the
`options` field of the issued call is always `Option.none`; the keyword
arguments are forwarded only on the `get_chart` path. -/
def download_chart (chart_options : Option PyVal) (filename : Option String)
    (auth_user : Option String) (auth_password : Option String)
    (timeout : Option Int) (server_instance : ServerArg)
    (kwargs : List (String × PyVal)) : Except PyErr ExportCall :=
  match server_instance with
  | .noServer =>
    .ok ⟨false, filename, auth_user, auth_password, timeout, kwargs, Option.none⟩
  | .otherObject => .error .highchartsValueError
  | .exportServer =>
    .ok ⟨true, filename, auth_user, auth_password, timeout, [], Option.none⟩

end Chart

/-- C5 (code evaluation): the request `Chart.download_chart` issues to the
Export Server never includes — and does not depend on — the chart's own
`options` configuration: both the `ExportServer.get_chart` path and the
`server_instance.request_chart` path are fully determined by the call's
arguments, with the `options` payload absent. -/
theorem download_chart_ignores_chart_options :
    ∀ (opts1 opts2 : Option PyVal) (filename auth_user auth_password : Option String)
      (timeout : Option Int) (kwargs : List (String × PyVal)),
    Chart.download_chart opts1 filename auth_user auth_password timeout
        .noServer kwargs
      = .ok ⟨false, filename, auth_user, auth_password, timeout, kwargs, Option.none⟩ ∧
    Chart.download_chart opts1 filename auth_user auth_password timeout
        .exportServer kwargs
      = .ok ⟨true, filename, auth_user, auth_password, timeout, [], Option.none⟩ ∧
    Chart.download_chart opts1 filename auth_user auth_password timeout
        .otherObject kwargs = .error .highchartsValueError ∧
    (∀ si, Chart.download_chart opts1 filename auth_user auth_password timeout si kwargs
      = Chart.download_chart opts2 filename auth_user auth_password timeout si kwargs) :=
  fun _ _ _ _ _ _ _ => ⟨rfl, rfl, rfl, fun _ => rfl⟩

/-- Python `a or b` (as used in `_get_kwargs_from_dict`): `a` when truthy,
otherwise `b`. -/
def pyOr (a b : PyVal) : PyVal := if pyTruthy a then a else b

/-- Python `as_dict.get(key, None)` for the string-keyed dict literals built
by `_to_untrimmed_dict` / read by `_get_kwargs_from_dict`. -/
def strGet (d : List (String × PyVal)) (k : String) : PyVal :=
  match d with
  | [] => PyVal.none
  | (k2, v) :: rest => if k2 = k then v else strGet rest k

/-- Models the third-party `validator_collection.validators.string` with
`allow_empty = True`, as called by the `Chart.container` and
`ArcDiagramData.from_`/`to` setters (the dependency's source is not vendored
under `src/`): a falsy value is treated as empty and returned as `None`; a
non-empty string is returned unchanged; any truthy non-string raises
`CannotCoerceError` (`coerce_value` is left at its default `False`). -/
def validators_string (value : PyVal) : Except PyErr PyVal :=
  if pyTruthy value = false then .ok PyVal.none
  else
    match value with
    | .str s => .ok (.str s)
    | _ => .error .cannotCoerceError

/-- Whether every character is a decimal digit. -/
def digitsOnly : List Char → Bool
  | [] => true
  | c :: rest => ("0123456789".data.contains c) && digitsOnly rest

/-- Accumulator-style decimal value of a digit string. -/
def strToIntAux : List Char → Int → Int
  | [], acc => acc
  | c :: rest, acc => strToIntAux rest (acc * 10 + Int.ofNat (c.toNat - 48))

/-- Integer-literal parse of a string: `some n` for a non-empty all-digit
string, `Option.none` otherwise (models the fragment of Python numeric
string coercion that this embedding needs). -/
def strToIntLit? (s : String) : Option Int :=
  match s.data with
  | [] => Option.none
  | cs => if digitsOnly cs then some (strToIntAux cs 0) else Option.none

/-- Models the third-party `validator_collection.validators.numeric` with
`allow_empty = True`, as called by the `ArcDiagramData.weight` setter:
`None` is returned as `None`; ints — and bools, which Python treats as
ints — pass through; numeric strings are coerced (modelled here for decimal
integer literals); anything else raises `CannotCoerceError`. -/
def validators_numeric (value : PyVal) : Except PyErr PyVal :=
  match value with
  | PyVal.none => .ok PyVal.none
  | .int n => .ok (.int n)
  | .bool b => .ok (.bool b)
  | .str s =>
    match strToIntLit? s with
    | some n => .ok (.int n)
    | Option.none => .error .cannotCoerceError
  | _ => .error .cannotCoerceError

namespace Chart

/-- Field state of a `Chart` instance (chart.py lines 18-27): the four
attributes as Python values, as stored after validation by the setters. -/
structure State where
  callback : PyVal
  container : PyVal
  options : PyVal
  variable_name : PyVal

/-- `Chart._to_untrimmed_dict` (chart.py lines 117-124): writes `callback`,
`container` and `userOptions`; `variable_name` is not serialized. -/
def toUntrimmedDict (c : State) : List (String × PyVal) :=
  [("callback", c.callback), ("container", c.container), ("userOptions", c.options)]

/-- The keyword arguments produced by `Chart._get_kwargs_from_dict`. -/
structure Kwargs where
  callback : PyVal
  container : PyVal
  options : PyVal
  variable_name : PyVal

/-- `Chart._get_kwargs_from_dict` (chart.py lines 105-115): reads `callback`
directly, `container` with `renderTo` as fallback, `options` with
`userOptions` as fallback, and `variable_name` with `variableName` as
fallback (each fallback via Python `or`). -/
def getKwargsFromDict (as_dict : List (String × PyVal)) : Kwargs :=
  ⟨strGet as_dict "callback",
   pyOr (strGet as_dict "container") (strGet as_dict "renderTo"),
   pyOr (strGet as_dict "options") (strGet as_dict "userOptions"),
   pyOr (strGet as_dict "variable_name") (strGet as_dict "variableName")⟩

/-- The `Chart.container` setter (chart.py lines 72-74): stores the value
validated by `validators.string(value, allow_empty = True)`. -/
def setContainer (c : State) (value : PyVal) : Except PyErr State :=
  (validators_string value).map (fun v => { c with container := v })

/-- The `Chart.container` getter (chart.py lines 63-70). -/
def getContainer (c : State) : PyVal := c.container

end Chart

namespace ArcDiagramData

/-- Field state of an `ArcDiagramData` instance: its own `from_`/`to`/`weight`
(arcdiagram.py lines 22-31) and the `DataBase` fields it serializes
(`accessibility` through `selected`; `DataBase` itself is not under `src/`,
so those fields are carried as opaque Python values). -/
structure State where
  from_ : PyVal
  to_ : PyVal
  weight : PyVal
  accessibility : PyVal
  class_name : PyVal
  color : PyVal
  color_index : PyVal
  custom : PyVal
  description : PyVal
  events : PyVal
  id : PyVal
  label_rank : PyVal
  name : PyVal
  selected : PyVal

/-- `ArcDiagramData._to_untrimmed_dict` (arcdiagram.py lines 203-222), with
the source's key renames: `from_` → `'from'`, `class_name` → `'className'`,
`color_index` → `'colorIndex'`, `label_rank` → `'labelrank'`. -/
def toUntrimmedDict (d : State) : List (String × PyVal) :=
  [("from", d.from_), ("to", d.to_), ("weight", d.weight),
   ("accessibility", d.accessibility), ("className", d.class_name),
   ("color", d.color), ("colorIndex", d.color_index), ("custom", d.custom),
   ("description", d.description), ("events", d.events), ("id", d.id),
   ("labelrank", d.label_rank), ("name", d.name), ("selected", d.selected)]

/-- The keyword arguments produced by `ArcDiagramData._get_kwargs_from_dict`,
in the source's order (arcdiagram.py lines 183-199). -/
structure Kwargs where
  accessibility : PyVal
  class_name : PyVal
  color : PyVal
  color_index : PyVal
  custom : PyVal
  description : PyVal
  events : PyVal
  id : PyVal
  label_rank : PyVal
  name : PyVal
  selected : PyVal
  from_ : PyVal
  to_ : PyVal
  weight : PyVal

/-- `ArcDiagramData._get_kwargs_from_dict` (arcdiagram.py lines 170-201). -/
def getKwargsFromDict (as_dict : List (String × PyVal)) : Kwargs :=
  ⟨strGet as_dict "accessibility",
   strGet as_dict "className",
   strGet as_dict "color",
   strGet as_dict "colorIndex",
   strGet as_dict "custom",
   strGet as_dict "description",
   strGet as_dict "events",
   strGet as_dict "id",
   strGet as_dict "labelrank",
   strGet as_dict "name",
   strGet as_dict "selected",
   strGet as_dict "from",
   strGet as_dict "to",
   strGet as_dict "weight"⟩

/-- The `ArcDiagramData.weight` setter (arcdiagram.py lines 90-92): stores
the value validated by `validators.numeric(value, allow_empty = True)`. -/
def setWeight (d : State) (value : PyVal) : Except PyErr State :=
  (validators_numeric value).map (fun v => { d with weight := v })

/-- The `ArcDiagramData.weight` getter (arcdiagram.py lines 81-88). -/
def getWeight (d : State) : PyVal := d.weight

end ArcDiagramData

/-- C7: serialization and dict-to-kwargs deserialization are inverse on the
mapped fields.  For every `ArcDiagramData` state, `_get_kwargs_from_dict`
applied to `_to_untrimmed_dict` recovers every field under the renamed keys
(`from` back to `from_`, `className` back to `class_name`, `labelrank` back
to `label_rank`, ...).  For every `Chart` state whose `container` respects
the setter's invariant (truthy string or `None`), the same holds, with
`userOptions` read back as `options` and `container`/`renderTo` read back as
`container` (`variable_name` is not serialized, so it deserializes as
`None`). -/
theorem kwargs_roundtrip :
    ∀ (d : ArcDiagramData.State) (c : Chart.State),
    (pyTruthy c.container = true ∨ c.container = PyVal.none) →
    ArcDiagramData.getKwargsFromDict (ArcDiagramData.toUntrimmedDict d) =
      ⟨d.accessibility, d.class_name, d.color, d.color_index, d.custom,
       d.description, d.events, d.id, d.label_rank, d.name, d.selected,
       d.from_, d.to_, d.weight⟩ ∧
    Chart.getKwargsFromDict (Chart.toUntrimmedDict c) =
      ⟨c.callback, c.container, c.options, PyVal.none⟩ := by
  intro d c hc
  constructor
  · rfl
  · have htn : pyTruthy PyVal.none = false := rfl
    rcases hc with hc | hc
    · simp [Chart.getKwargsFromDict, Chart.toUntrimmedDict, strGet, pyOr, hc, htn]
    · simp [Chart.getKwargsFromDict, Chart.toUntrimmedDict, strGet, pyOr, hc, htn]

/-- Witness for C7 at concrete states. -/
theorem kwargs_roundtrip_witness :
    ArcDiagramData.getKwargsFromDict (ArcDiagramData.toUntrimmedDict
      ⟨.str "A", .str "B", .int 3, PyVal.none, .str "cls", PyVal.none, PyVal.none,
       PyVal.none, PyVal.none, PyVal.none, PyVal.none, .int 2, PyVal.none,
       PyVal.none⟩) =
      ⟨PyVal.none, .str "cls", PyVal.none, PyVal.none, PyVal.none, PyVal.none,
       PyVal.none, PyVal.none, .int 2, PyVal.none, PyVal.none, .str "A",
       .str "B", .int 3⟩ ∧
    Chart.getKwargsFromDict (Chart.toUntrimmedDict
      ⟨PyVal.none, .str "main", .str "opts", PyVal.none⟩) =
      ⟨PyVal.none, .str "main", .str "opts", PyVal.none⟩ :=
  kwargs_roundtrip
    ⟨.str "A", .str "B", .int 3, PyVal.none, .str "cls", PyVal.none, PyVal.none,
     PyVal.none, PyVal.none, PyVal.none, PyVal.none, .int 2, PyVal.none, PyVal.none⟩
    ⟨PyVal.none, .str "main", .str "opts", PyVal.none⟩
    (Or.inl (by simp [pyTruthy]))

/-- C8 counterexample: assigning the falsy non-string `0` to
`Chart.container` does not raise an error — `validators.string` treats every
falsy value as empty under `allow_empty = True` and the setter stores
`None`.  The claim's "raises an error for every non-string value" fails. -/
theorem setContainer_counterexample :
    Chart.setContainer ⟨PyVal.none, PyVal.none, PyVal.none, PyVal.none⟩ (PyVal.int 0)
      = .ok ⟨PyVal.none, PyVal.none, PyVal.none, PyVal.none⟩ := rfl

/-- C8 (amended): the `Chart.container` setter stores the string for truthy
string input, stores `None` for every falsy input (of any type: `None`,
`''`, `0`, `False`, empty collections), and raises `CannotCoerceError` for
truthy non-strings; the `ArcDiagramData.weight` setter stores `None` for
`None`, stores numeric input, and raises `CannotCoerceError` for
non-numeric, non-coercible input; after every successful assignment the
getter returns exactly the validated value. -/
theorem setter_validation :
    ∀ (c : Chart.State) (d : ArcDiagramData.State) (v : PyVal),
    (pyTruthy v = false →
      Chart.setContainer c v = .ok { c with container := PyVal.none }) ∧
    (∀ s, v = PyVal.str s → s ≠ "" →
      Chart.setContainer c v = .ok { c with container := PyVal.str s }) ∧
    (pyTruthy v = true → (∀ s, v ≠ PyVal.str s) →
      Chart.setContainer c v = .error .cannotCoerceError) ∧
    (∀ c2 w, validators_string v = .ok w → Chart.setContainer c v = .ok c2 →
      Chart.getContainer c2 = w) ∧
    (v = PyVal.none →
      ArcDiagramData.setWeight d v = .ok { d with weight := PyVal.none }) ∧
    (∀ n, v = PyVal.int n →
      ArcDiagramData.setWeight d v = .ok { d with weight := PyVal.int n }) ∧
    ((∀ n, v ≠ PyVal.int n) → (∀ b, v ≠ PyVal.bool b) → v ≠ PyVal.none →
      (∀ s, v = PyVal.str s → strToIntLit? s = Option.none) →
      ArcDiagramData.setWeight d v = .error .cannotCoerceError) ∧
    (∀ d2 w, validators_numeric v = .ok w → ArcDiagramData.setWeight d v = .ok d2 →
      ArcDiagramData.getWeight d2 = w) := by
  intro c d v
  refine ⟨?_, ?_, ?_, ?_, ?_, ?_, ?_, ?_⟩
  · intro hf
    simp [Chart.setContainer, validators_string, hf, Except.map]
  · intro s hv hs
    subst hv
    have ht : pyTruthy (PyVal.str s) = true := by simp [pyTruthy, hs]
    simp [Chart.setContainer, validators_string, ht, Except.map]
  · intro ht hns
    cases v with
    | str s => exact absurd rfl (hns s)
    | none => simp [pyTruthy] at ht
    | bool b =>
      simp [Chart.setContainer, validators_string, ht, Except.map]
    | int n =>
      simp [Chart.setContainer, validators_string, ht, Except.map]
    | list xs =>
      simp [Chart.setContainer, validators_string, ht, Except.map]
    | dict kvs =>
      simp [Chart.setContainer, validators_string, ht, Except.map]
    | enforcedNull =>
      simp [Chart.setContainer, validators_string, ht, Except.map]
  · intro c2 w hval hset
    rw [Chart.setContainer, hval] at hset
    injection hset with h2
    rw [← h2]
    rfl
  · intro hv
    subst hv
    rfl
  · intro n hv
    subst hv
    rfl
  · intro hint hbool hnone hstr
    cases v with
    | none => exact absurd rfl hnone
    | int n => exact absurd rfl (hint n)
    | bool b => exact absurd rfl (hbool b)
    | str s =>
      simp [ArcDiagramData.setWeight, validators_numeric, hstr s rfl, Except.map]
    | list xs => rfl
    | dict kvs => rfl
    | enforcedNull => rfl
  · intro d2 w hval hset
    rw [ArcDiagramData.setWeight, hval] at hset
    injection hset with h2
    rw [← h2]
    rfl

/-- Witness for C8's amended statement: the three container outcomes and
three weight outcomes at concrete inputs. -/
theorem setter_validation_witness :
    Chart.setContainer ⟨PyVal.none, PyVal.none, PyVal.none, PyVal.none⟩
      (PyVal.str "main")
      = .ok ⟨PyVal.none, PyVal.str "main", PyVal.none, PyVal.none⟩ ∧
    Chart.setContainer ⟨PyVal.none, PyVal.none, PyVal.none, PyVal.none⟩
      (PyVal.str "")
      = .ok ⟨PyVal.none, PyVal.none, PyVal.none, PyVal.none⟩ ∧
    Chart.setContainer ⟨PyVal.none, PyVal.none, PyVal.none, PyVal.none⟩
      (PyVal.list [PyVal.int 1])
      = .error .cannotCoerceError ∧
    ArcDiagramData.setWeight
      ⟨PyVal.none, PyVal.none, PyVal.none, PyVal.none, PyVal.none, PyVal.none,
       PyVal.none, PyVal.none, PyVal.none, PyVal.none, PyVal.none, PyVal.none,
       PyVal.none, PyVal.none⟩ (PyVal.int 5)
      = .ok ⟨PyVal.none, PyVal.none, PyVal.int 5, PyVal.none, PyVal.none,
        PyVal.none, PyVal.none, PyVal.none, PyVal.none, PyVal.none, PyVal.none,
        PyVal.none, PyVal.none, PyVal.none⟩ ∧
    ArcDiagramData.setWeight
      ⟨PyVal.none, PyVal.none, PyVal.none, PyVal.none, PyVal.none, PyVal.none,
       PyVal.none, PyVal.none, PyVal.none, PyVal.none, PyVal.none, PyVal.none,
       PyVal.none, PyVal.none⟩ (PyVal.dict [(PyVal.str "k", PyVal.int 1)])
      = .error .cannotCoerceError := by
  refine ⟨?_, ?_, ?_, ?_, ?_⟩
  · exact (setter_validation ⟨PyVal.none, PyVal.none, PyVal.none, PyVal.none⟩
      ⟨PyVal.none, PyVal.none, PyVal.none, PyVal.none, PyVal.none, PyVal.none,
       PyVal.none, PyVal.none, PyVal.none, PyVal.none, PyVal.none, PyVal.none,
       PyVal.none, PyVal.none⟩ (PyVal.str "main")).2.1 "main" rfl (by simp)
  · exact (setter_validation ⟨PyVal.none, PyVal.none, PyVal.none, PyVal.none⟩
      ⟨PyVal.none, PyVal.none, PyVal.none, PyVal.none, PyVal.none, PyVal.none,
       PyVal.none, PyVal.none, PyVal.none, PyVal.none, PyVal.none, PyVal.none,
       PyVal.none, PyVal.none⟩ (PyVal.str "")).1 (by simp [pyTruthy])
  · exact (setter_validation ⟨PyVal.none, PyVal.none, PyVal.none, PyVal.none⟩
      ⟨PyVal.none, PyVal.none, PyVal.none, PyVal.none, PyVal.none, PyVal.none,
       PyVal.none, PyVal.none, PyVal.none, PyVal.none, PyVal.none, PyVal.none,
       PyVal.none, PyVal.none⟩ (PyVal.list [PyVal.int 1])).2.2.1
      (by simp [pyTruthy]) (by intro s h; cases h)
  · exact (setter_validation ⟨PyVal.none, PyVal.none, PyVal.none, PyVal.none⟩
      ⟨PyVal.none, PyVal.none, PyVal.none, PyVal.none, PyVal.none, PyVal.none,
       PyVal.none, PyVal.none, PyVal.none, PyVal.none, PyVal.none, PyVal.none,
       PyVal.none, PyVal.none⟩ (PyVal.int 5)).2.2.2.2.2.1 5 rfl
  · exact (setter_validation ⟨PyVal.none, PyVal.none, PyVal.none, PyVal.none⟩
      ⟨PyVal.none, PyVal.none, PyVal.none, PyVal.none, PyVal.none, PyVal.none,
       PyVal.none, PyVal.none, PyVal.none, PyVal.none, PyVal.none, PyVal.none,
       PyVal.none, PyVal.none⟩ (PyVal.dict [(PyVal.str "k", PyVal.int 1)])).2.2.2.2.2.2.1
      (by intro n h; cases h) (by intro b h; cases h) (by intro h; cases h)
      (by intro s h; cases h)

namespace ArcDiagramData

/-- Models `validator_collection.checkers.is_numeric` (dependency, not under
`src/`): `True` for ints and bools and for numeric string literals; `False`
for `None` (rejected by `validators.numeric` without `allow_empty`) and
everything else. -/
def is_numeric : PyVal → Bool
  | .int _ => true
  | .bool _ => true
  | .str s => (strToIntLit? s).isSome
  | _ => false

/-- An `ArcDiagramData` data point as constructed by `from_list`, carrying
the fields the claims mention.  The `y` field is modelled from the spec:
`DataBase.__init__`'s handling of the `y` keyword is not under `src/`, so a
constructed point simply carries the supplied `y` value. -/
structure ArcPoint where
  from_ : PyVal
  to_ : PyVal
  weight : PyVal
  y : PyVal
deriving Repr

/-- The `ArcDiagramData(**kwargs)` construction as invoked by `from_list`
(arcdiagram.py lines 22-31): `from_`, `to` and `weight` run through their
property setters (in source order), raising the validators' errors on
invalid values; `y` is carried as supplied. -/
def mkArcPoint (f t w y : PyVal) : Except PyErr ArcPoint :=
  match validators_string f with
  | .error e => .error e
  | .ok f2 =>
    match validators_string t with
    | .error e => .error e
    | .ok t2 =>
      match validators_numeric w with
      | .error e => .error e
      | .ok w2 => .ok ⟨f2, t2, w2, y⟩

/-- Modelled from the spec: `DataBase.from_dict` is not under `src/`; per the
spec's deserialization scheme it initializes the point from
`_get_kwargs_from_dict` of the dict (restricted here to the fields carried
by `ArcPoint`; keys absent from the dict default to `None`). -/
def fromDict (kvs : List (PyVal × PyVal)) : Except PyErr ArcPoint :=
  mkArcPoint ((pyLookup kvs (.str "from")).getD PyVal.none)
    ((pyLookup kvs (.str "to")).getD PyVal.none)
    ((pyLookup kvs (.str "weight")).getD PyVal.none)
    PyVal.none

/-- The per-item coercion of `ArcDiagramData.from_list` (arcdiagram.py lines
107-131): dict items go through `from_dict`; `None`/`EnforcedNullType`
items and numeric items become `y` data points; non-string, non-dict
iterable items must have length exactly 3 (`from_`, `to`, `weight` from
positions 0, 1, 2); anything else raises `HighchartsValueError`.  (The
`checkers.is_type(item, 'SinglePointData')` test is never true for plain
embedded values and is omitted; a list item is never numeric and a numeric
item is never a list, so the arms below are order-equivalent to the
source's `elif` chain.) -/
def fromListItem (item : PyVal) : Except PyErr ArcPoint :=
  match item with
  | .dict kvs => fromDict kvs
  | PyVal.none => mkArcPoint PyVal.none PyVal.none PyVal.none PyVal.none
  | .enforcedNull => mkArcPoint PyVal.none PyVal.none PyVal.none PyVal.none
  | .list xs =>
    if xs.length = 3 then
      mkArcPoint (xs.getD 0 PyVal.none) (xs.getD 1 PyVal.none)
        (xs.getD 2 PyVal.none) PyVal.none
    else .error .highchartsValueError
  | v =>
    if is_numeric v then mkArcPoint PyVal.none PyVal.none PyVal.none v
    else .error .highchartsValueError

/-- The item loop of `from_list` (arcdiagram.py lines 106-133): items are
coerced in order, collecting the points; the first failure raises. -/
def fromListLoop : List PyVal → Except PyErr (List ArcPoint)
  | [] => .ok []
  | item :: rest =>
    match fromListItem item with
    | .error e => .error e
    | .ok p =>
      match fromListLoop rest with
      | .error e => .error e
      | .ok ps => .ok (p :: ps)

/-- Shallow embedding of `ArcDiagramData.from_list` (arcdiagram.py lines
94-133).  Falsy input returns `[]`.  A string input first attempts
`validators.json` — JSON parsing is outside this model, so the attempt is
modelled as failing (the source's `except ... pass`), after which Python
iterates the string character-wise.  Dict input iterates its keys
(`checkers.is_iterable` with its default `forbid_literals = (str, bytes)`
accepts dicts); other non-iterable truthy input is wrapped in a singleton
list. -/
def from_list (value : PyVal) : Except PyErr (List ArcPoint) :=
  if pyTruthy value = false then .ok []
  else
    match value with
    | .str s => fromListLoop (s.data.map (fun c => PyVal.str (String.mk [c])))
    | .list xs => fromListLoop xs
    | .dict kvs => fromListLoop (kvs.map Prod.fst)
    | v => fromListLoop [v]

/-- `ArcDiagramData._get_supported_dimensions` (arcdiagram.py lines 145-151). -/
def getSupportedDimensions : List Nat := [1, 3]

end ArcDiagramData

/-- C10 counterexample: the length-3 iterable item `[1, 2, 3]` does not
become a data point as the claim states — position 0 is validated by the
`from_` setter, and the truthy non-string `1` makes `validators.string`
raise `CannotCoerceError` inside the constructor. -/
theorem from_list_counterexample :
    ArcDiagramData.from_list (.list [.list [.int 1, .int 2, .int 3]])
      = .error .cannotCoerceError := rfl

/-- C10 (amended): `ArcDiagramData.from_list` is total on coercible input and
rejects the rest: every falsy input yields `[]`; a numeric item becomes a
data point with `y` set to that number; a `None` or `EnforcedNullType` item
becomes a `y = None` point; a non-string, non-dict iterable item of length
exactly 3 is passed to the data-point constructor with `from_`, `to`,
`weight` taken from positions 0, 1, 2 — succeeding when those positions pass
the setters' validation (e.g. string/string/number) and raising the
validator's error otherwise; such an item of any other length raises
`HighchartsValueError`, as does any other non-coercible item; and on a
truthy list input the items are processed elementwise in order. -/
theorem from_list_spec :
    ∀ (v : PyVal) (xs items : List PyVal) (n w : Int) (s1 s2 : String),
    (pyTruthy v = false → ArcDiagramData.from_list v = .ok []) ∧
    ArcDiagramData.fromListItem (PyVal.int n)
      = .ok ⟨PyVal.none, PyVal.none, PyVal.none, PyVal.int n⟩ ∧
    ArcDiagramData.fromListItem PyVal.none
      = .ok ⟨PyVal.none, PyVal.none, PyVal.none, PyVal.none⟩ ∧
    ArcDiagramData.fromListItem PyVal.enforcedNull
      = .ok ⟨PyVal.none, PyVal.none, PyVal.none, PyVal.none⟩ ∧
    (∀ a b c, ArcDiagramData.fromListItem (.list [a, b, c])
      = ArcDiagramData.mkArcPoint a b c PyVal.none) ∧
    (s1 ≠ "" → s2 ≠ "" →
      ArcDiagramData.fromListItem (.list [.str s1, .str s2, .int w])
        = .ok ⟨.str s1, .str s2, .int w, PyVal.none⟩) ∧
    (xs.length ≠ 3 →
      ArcDiagramData.fromListItem (.list xs) = .error .highchartsValueError) ∧
    (∀ s, ArcDiagramData.is_numeric (.str s) = false →
      ArcDiagramData.fromListItem (.str s) = .error .highchartsValueError) ∧
    ArcDiagramData.from_list (.list items) = ArcDiagramData.fromListLoop items := by
  intro v xs items n w s1 s2
  refine ⟨?_, rfl, rfl, rfl, fun a b c => rfl, ?_, ?_, ?_, ?_⟩
  · intro h
    simp [ArcDiagramData.from_list, h]
  · intro h1 h2
    have ht1 : pyTruthy (PyVal.str s1) = true := by simp [pyTruthy, h1]
    have ht2 : pyTruthy (PyVal.str s2) = true := by simp [pyTruthy, h2]
    simp [ArcDiagramData.fromListItem, ArcDiagramData.mkArcPoint,
      validators_string, validators_numeric, ht1, ht2]
  · intro h
    simp [ArcDiagramData.fromListItem, h]
  · intro s h
    simp [ArcDiagramData.fromListItem, h]
  · cases items with
    | nil => rfl
    | cons x rest =>
      simp [ArcDiagramData.from_list, pyTruthy]

/-- Witness for C10's amended statement: concrete instances of the falsy,
numeric, length-3 and wrong-length clauses. -/
theorem from_list_spec_witness :
    ArcDiagramData.from_list (PyVal.int 0) = .ok [] ∧
    ArcDiagramData.fromListItem (.list [.str "n1", .str "n2", .int 7])
      = .ok ⟨.str "n1", .str "n2", .int 7, PyVal.none⟩ ∧
    ArcDiagramData.fromListItem (.list [.int 1])
      = .error .highchartsValueError ∧
    ArcDiagramData.fromListItem (.str "xy")
      = .error .highchartsValueError := by
  refine ⟨?_, ?_, ?_, ?_⟩
  · exact (from_list_spec (PyVal.int 0) [] [] 0 0 "" "").1 rfl
  · exact (from_list_spec PyVal.none [] [] 0 7 "n1" "n2").2.2.2.2.2.1
      (by simp) (by simp)
  · exact (from_list_spec PyVal.none [.int 1] [] 0 0 "" "").2.2.2.2.2.2.1
      (by simp)
  · exact (from_list_spec PyVal.none [] [] 0 0 "" "").2.2.2.2.2.2.2.1 "xy" rfl
